import Mathlib

/-!
Verification of the aries-rust storage engine against its specification.

The Rust sources are shallowly embedded: machine integers (u64, u32) become
`Nat` (with explicit `% 2 ^ 64` via byte encoding where serialization makes
overflow observable), `HashMap`/`HashSet` become association lists / lists
in insertion order (their iteration order in the source is arbitrary; the
claims checked here either do not depend on the order or are evaluated at
inputs where only one choice exists), fallible code returns `Except` and
Rust panics become a distinguished outcome.
-/

set_option maxRecDepth 4000

namespace Aries

/-! ## Byte-level helpers (little-endian u64, file writes, slice copies) -/

/-- The `k` low-order bytes of `n`, least significant first (`to_le_bytes`). -/
def leBytes : Nat → Nat → List Nat
  | 0, _ => []
  | k + 1, n => n % 256 :: leBytes k (n / 256)

/-- `u64::to_le_bytes`: 8 bytes, least significant first. -/
def u64le (n : Nat) : List Nat := leBytes 8 n

/-- Value of a little-endian byte sequence (`u64::from_le_bytes`). -/
def leVal (bs : List Nat) : Nat := bs.foldr (fun b acc => b + 256 * acc) 0

/-- `read_exact` of `n` bytes at position `off` of a byte sequence: `none`
models the `std::io` unexpected-EOF error. -/
def readExact (bytes : List Nat) (off n : Nat) : Option (List Nat) :=
  if off + n ≤ bytes.length then some ((bytes.drop off).take n) else none

/-- `seek(off)` followed by `write_all(data)` on a file: overwrites in place,
extends the file when needed, zero-fills a gap beyond the old end. -/
def writeAt (file : List Nat) (off : Nat) (data : List Nat) : List Nat :=
  file.take off ++ List.replicate (off - file.length) 0 ++ data
    ++ file.drop (off + data.length)

/-- `data[off .. off + len].copy_from_slice(&img[0 .. len])`: `none` models
the panic when either slice is out of bounds. -/
def copyFromSlice (data : List Nat) (off len : Nat) (img : List Nat) :
    Option (List Nat) :=
  if off + len ≤ data.length ∧ len ≤ img.length then
    some (data.take off ++ img.take len ++ data.drop (off + len))
  else none

/-! ## Association lists standing for `HashMap`, lists standing for `HashSet`
(iteration order = insertion order). -/

/-- `HashMap::get`. -/
def aget {α : Type} : List (Nat × α) → Nat → Option α
  | [], _ => none
  | (k, v) :: rest, key => if k = key then some v else aget rest key

/-- `HashMap::insert`: replaces the value at an existing key, otherwise
appends. -/
def aput {α : Type} : List (Nat × α) → Nat → α → List (Nat × α)
  | [], key, v => [(key, v)]
  | (k, w) :: rest, key, v =>
      if k = key then (k, v) :: rest else (k, w) :: aput rest key v

/-- `HashMap::remove` (the removed value is not needed by any caller here). -/
def adel {α : Type} : List (Nat × α) → Nat → List (Nat × α)
  | [], _ => []
  | (k, v) :: rest, key =>
      if k = key then adel rest key else (k, v) :: adel rest key

/-- The key list of an association list. -/
def akeys {α : Type} (m : List (Nat × α)) : List Nat := m.map Prod.fst

/-- `HashSet::insert`. -/
def insertSet (s : List Nat) (x : Nat) : List Nat :=
  if x ∈ s then s else s ++ [x]

/-- `HashSet::remove`. -/
def removeSet (s : List Nat) (x : Nat) : List Nat := s.filter (fun y => y ≠ x)

/-- `HashSet::union` (as the log manager's analysis phase uses it). -/
def unionSet (s t : List Nat) : List Nat := s ++ t.filter (fun y => y ∉ s)

/-- Remove the first occurrence of `x` (a `VecDeque` `position` + `remove`). -/
def removeFirst : List Nat → Nat → List Nat
  | [], _ => []
  | y :: rest, x => if y = x then rest else y :: removeFirst rest x

/-! ## Error taxonomy (`common/error.rs`) -/

/-- `BuzzDBError`. `IOError` drops the underlying `std::io::Error` payload. -/
inductive BuzzDBError where
  | NotImplemented
  | BufferFull
  | IOError
  | Other (msg : String)
  | InvalidSlotIndex (i : Nat)
  | EmptySlot (i : Nat)
  | DeserializationError
  | PageFull (p : Nat)
  | PageNotFound (p : Nat)
  | PageSizeExceeded (got max : Nat)
  deriving DecidableEq, Repr

instance exceptDecEq {e a : Type} [DecidableEq e] [DecidableEq a] :
    DecidableEq (Except e a) := fun x y =>
  match x, y with
  | .ok u, .ok v =>
      if h : u = v then isTrue (by rw [h]) else isFalse (by simp [h])
  | .error u, .error v =>
      if h : u = v then isTrue (by rw [h]) else isFalse (by simp [h])
  | .ok _, .error _ => isFalse (by simp)
  | .error _, .ok _ => isFalse (by simp)

/-- Outcome of running a piece of Rust code that can return `Ok`, return an
`Err`, or panic. -/
inductive RunRes (α : Type) where
  | ok (a : α)
  | err (e : BuzzDBError)
  | panicked
  deriving DecidableEq, Repr

/-! ## SlottedPage (`storage/slotted_page.rs`)

`PageID` and `RecordID` are newtype wrappers around `u64`; they are embedded
as plain `Nat`. -/

structure SlottedPage where
  page_id : Nat
  slots : List (Option Nat)
  deriving DecidableEq, Repr

def SlottedPage.new (page_id num_slots : Nat) : SlottedPage :=
  { page_id := page_id, slots := List.replicate num_slots none }

/-- Linear scan for the first empty slot; writes `record_id` into it. -/
def allocAux (record_id : Nat) : List (Option Nat) → Nat →
    Option Nat × List (Option Nat)
  | [], _ => (none, [])
  | slot :: rest, index =>
      match slot with
      | none => (some index, some record_id :: rest)
      | some r =>
          let (found, rest1) := allocAux record_id rest (index + 1)
          (found, some r :: rest1)

def SlottedPage.allocate_slot (p : SlottedPage) (record_id : Nat) :
    Option Nat × SlottedPage :=
  let (found, slots1) := allocAux record_id p.slots 0
  (found, { p with slots := slots1 })

def SlottedPage.deallocate_slot (p : SlottedPage) (slot_index : Nat) :
    Except BuzzDBError Unit × SlottedPage :=
  if slot_index ≥ p.slots.length then
    (.error (.InvalidSlotIndex slot_index), p)
  else
    (.ok (), { p with slots := p.slots.set slot_index none })

def SlottedPage.get_record_id (p : SlottedPage) (slot_index : Nat) :
    Except BuzzDBError Nat :=
  if slot_index ≥ p.slots.length then .error (.InvalidSlotIndex slot_index)
  else
    match p.slots.getD slot_index none with
    | some record_id => .ok record_id
    | none => .error (.EmptySlot slot_index)

/-- One slot under bincode 1.x defaults: `Option` is a one-byte tag
(0 = `None`, 1 = `Some`) followed by the payload, a `u64` as 8 LE bytes. -/
def encSlot : Option Nat → List Nat
  | none => [0]
  | some r => 1 :: u64le r

/-- `bincode::serialize` of a `SlottedPage` under bincode 1.x defaults:
fixed-width little-endian integers, a `Vec` as a `u64` LE length prefix
followed by its elements, a newtype struct as its inner value. -/
def SlottedPage.serialize (p : SlottedPage) : List Nat :=
  u64le p.page_id ++ u64le p.slots.length ++ (p.slots.map encSlot).flatten

/-- Read one fixed-width LE `u64`. -/
def du64 (bs : List Nat) : Option (Nat × List Nat) :=
  if 8 ≤ bs.length then some (leVal (bs.take 8), bs.drop 8) else none

/-- Read one `Option<RecordID>`. -/
def dslot : List Nat → Option (Option Nat × List Nat)
  | [] => none
  | b :: rest =>
      if b = 0 then some (none, rest)
      else if b = 1 then
        match du64 rest with
        | some (r, rest1) => some (some r, rest1)
        | none => none
      else none

/-- Read `n` slots. -/
def dslots : Nat → List Nat → Option (List (Option Nat) × List Nat)
  | 0, bs => some ([], bs)
  | n + 1, bs =>
      match dslot bs with
      | none => none
      | some (s, bs1) =>
          match dslots n bs1 with
          | none => none
          | some (ss, bs2) => some (s :: ss, bs2)

/-- `bincode::deserialize` (any failure is mapped to `DeserializationError`;
trailing bytes are permitted, as with bincode 1.x slice deserialization,
which `read_page_from_disk` relies on). -/
def SlottedPage.deserialize (bs : List Nat) : Except BuzzDBError SlottedPage :=
  match du64 bs with
  | none => .error .DeserializationError
  | some (pid, bs1) =>
      match du64 bs1 with
      | none => .error .DeserializationError
      | some (n, bs2) =>
          match dslots n bs2 with
          | none => .error .DeserializationError
          | some (slots, _) => .ok { page_id := pid, slots := slots }

/-! ## Buffer manager (`buffer/buffer_manager.rs`)

A frame handle (`Arc<Mutex<BufferFrame>>`) is identified by its page id:
`frames` never holds two frames with the same `PageID`, and the claims below
only unfix handles whose frame is still resident. -/

structure BufferFrame where
  page_id : Nat
  data : List Nat
  is_dirty : Bool
  pin_count : Nat
  deriving DecidableEq, Repr

def BufferFrame.new (page_id page_size : Nat) : BufferFrame :=
  { page_id := page_id, data := List.replicate page_size 0,
    is_dirty := false, pin_count := 0 }

structure BufferManager where
  frames : List (Nat × BufferFrame)
  page_size : Nat
  capacity : Nat
  deriving DecidableEq, Repr

def BufferManager.new (page_size capacity : Nat) : BufferManager :=
  { frames := [], page_size := page_size, capacity := capacity }

def BufferManager.can_evict_page (bm : BufferManager) : Bool :=
  bm.frames.any (fun kv => kv.2.pin_count = 0)

/-- `flush_page`: in the source the body only inspects the dirty flag; the
write-back and the `frame.set_dirty(false)` line are commented out, so the
state is returned unchanged in every branch. -/
def BufferManager.flush_page (bm : BufferManager) (page_id : Nat) :
    Except BuzzDBError Unit × BufferManager :=
  match aget bm.frames page_id with
  | some frame => if frame.is_dirty then (.ok (), bm) else (.ok (), bm)
  | none => (.ok (), bm)

/-- `evict_page`: the first unpinned frame (iteration order stands in for the
`HashMap` order); flushed via `flush_page` and then removed. -/
def BufferManager.evict_page (bm : BufferManager) :
    Except BuzzDBError Unit × BufferManager :=
  match bm.frames.find? (fun kv => kv.2.pin_count = 0) with
  | some kv =>
      let bm1 := (bm.flush_page kv.1).2
      (.ok (), { bm1 with frames := adel bm1.frames kv.1 })
  | none => (.error .BufferFull, bm)

def BufferManager.fix_page (bm : BufferManager) (page_id : Nat)
    (is_exclusive : Bool) : Except BuzzDBError Unit × BufferManager :=
  match aget bm.frames page_id with
  | some _ =>
      (.ok (), { bm with frames := bm.frames.map (fun kv =>
        if kv.1 = page_id then (kv.1, { kv.2 with pin_count := kv.2.pin_count + 1 })
        else kv) })
  | none =>
      if bm.frames.length ≥ bm.capacity ∧ ¬bm.can_evict_page then
        (.error .BufferFull, bm)
      else
        match (if bm.frames.length ≥ bm.capacity then bm.evict_page
               else (.ok (), bm)) with
        | (.error e, bm1) => (.error e, bm1)
        | (.ok _, bm1) =>
            let frame := BufferFrame.new page_id bm.page_size
            let frame := { frame with
                           pin_count := 1,
                           is_dirty := if is_exclusive then true else frame.is_dirty }
            (.ok (), { bm1 with frames := bm1.frames ++ [(page_id, frame)] })

def BufferManager.unfix_page (bm : BufferManager) (page_id : Nat)
    (is_dirty : Bool) : Except BuzzDBError Unit × BufferManager :=
  match aget bm.frames page_id with
  | none => (.ok (), bm)
  | some frame =>
      let frame1 := if is_dirty then { frame with is_dirty := true } else frame
      if frame1.pin_count = 0 then
        (.error (.Other "Cannot unpin a page with pin count 0"),
         { bm with frames := aput bm.frames page_id frame1 })
      else
        let frame2 := { frame1 with pin_count := frame1.pin_count - 1 }
        (.ok (), { bm with frames := aput bm.frames page_id frame2 })

def flushAllAux (bm : BufferManager) : List Nat → Except BuzzDBError Unit × BufferManager
  | [] => (.ok (), bm)
  | p :: ps =>
      match bm.flush_page p with
      | (.ok _, bm1) => flushAllAux bm1 ps
      | (.error e, bm1) => (.error e, bm1)

def BufferManager.flush_all_pages (bm : BufferManager) :
    Except BuzzDBError Unit × BufferManager :=
  flushAllAux bm (akeys bm.frames)

def BufferManager.discard_page (bm : BufferManager) (page_id : Nat) :
    Except BuzzDBError Unit × BufferManager :=
  match aget bm.frames page_id with
  | some frame =>
      if frame.pin_count > 0 then
        (.error (.Other "Cannot discard a pinned page"), bm)
      else (.ok (), { bm with frames := adel bm.frames page_id })
  | none => (.ok (), { bm with frames := adel bm.frames page_id })

def BufferManager.discard_all_pages (bm : BufferManager) :
    Except BuzzDBError Unit × BufferManager :=
  (.ok (), { bm with frames := bm.frames.filter (fun kv => kv.2.pin_count > 0) })

/-- The fix-exclusive / overwrite `[offset, offset+length)` / unfix-dirty
block that `redo_phase`, `undo_phase` and `rollback_txn` each perform inline
for one `Update` record. `.panicked` covers the out-of-bounds
`copy_from_slice` panic (the lookup after `fix_page` cannot fail: `fix_page`
just pinned that page). -/
def BufferManager.apply_image (bm : BufferManager) (page_id off len : Nat)
    (img : List Nat) : RunRes Unit × BufferManager :=
  match bm.fix_page page_id true with
  | (.error e, bm1) => (.err e, bm1)
  | (.ok _, bm1) =>
      match aget bm1.frames page_id with
      | none => (.panicked, bm1)
      | some frame =>
          match copyFromSlice frame.data off len img with
          | none => (.panicked, bm1)
          | some data1 =>
              let bm2 := { bm1 with
                frames := aput bm1.frames page_id { frame with data := data1 } }
              match bm2.unfix_page page_id true with
              | (.error e, bm3) => (.err e, bm3)
              | (.ok _, bm3) => (.ok (), bm3)

/-! ## Log manager (`log_mod/log_manager.rs`) -/

inductive LogRecordType where
  | BeginRecord
  | CommitRecord
  | AbortRecord
  | UpdateRecord
  | CheckpointRecord
  deriving DecidableEq, Repr

/-- The `u8` discriminant of each record type. -/
def LogRecordType.toByte : LogRecordType → Nat
  | .BeginRecord => 0
  | .CommitRecord => 1
  | .AbortRecord => 2
  | .UpdateRecord => 3
  | .CheckpointRecord => 4

/-- `From<u8> for LogRecordType`: `none` models the
`panic!("Invalid log record type")` arm. -/
def LogRecordType.fromByte : Nat → Option LogRecordType
  | 0 => some .BeginRecord
  | 1 => some .CommitRecord
  | 2 => some .AbortRecord
  | 3 => some .UpdateRecord
  | 4 => some .CheckpointRecord
  | _ => none

structure LogRecordData where
  record_type : LogRecordType
  txn_id : Nat
  page_id : Option Nat
  length : Option Nat
  offset : Option Nat
  before_img : Option (List Nat)
  after_img : Option (List Nat)
  log_offset : Nat
  record_size : Nat
  deriving DecidableEq, Repr

/-- What `read_all_logs` can produce: a parsed record list, an I/O error
(`read_exact` past EOF, surfaced as `BuzzDBError::IOError`), or the panic of
`LogRecordType::from` on a type byte outside `0..=4`. -/
inductive ParseOutcome where
  | ok (logs : List LogRecordData)
  | ioError
  | panicked
  deriving DecidableEq, Repr

/-- The `while offset < current_offset` loop of `read_all_logs`. `fuel` is
structural bookkeeping only: every record advances `offset` by at least 9,
so the `fuel = 0` branch is unreachable for the callers below, which pass
`fuel = co`. -/
def readLogsAux (bytes : List Nat) (co : Nat) : Nat → Nat → ParseOutcome
  | offset, fuel =>
    if offset < co then
      match fuel with
      | 0 => .ioError
      | fuel + 1 =>
          match readExact bytes offset 1 with
          | none => .ioError
          | some tb =>
              match LogRecordType.fromByte (tb.headD 0) with
              | none => .panicked
              | some rt =>
                  match readExact bytes (offset + 1) 8 with
                  | none => .ioError
                  | some tbs =>
                      let txn := leVal tbs
                      if rt = .UpdateRecord then
                        match readExact bytes (offset + 9) 8,
                              readExact bytes (offset + 17) 8,
                              readExact bytes (offset + 25) 8 with
                        | some pbs, some lbs, some obs =>
                            let len := leVal lbs
                            match readExact bytes (offset + 33) len,
                                  readExact bytes (offset + 33 + len) len with
                            | some bi, some ai =>
                                let rsize := 9 + 8 + 8 + 8 + 2 * len
                                let r : LogRecordData :=
                                  { record_type := rt, txn_id := txn,
                                    page_id := some (leVal pbs),
                                    length := some len,
                                    offset := some (leVal obs),
                                    before_img := some bi, after_img := some ai,
                                    log_offset := offset, record_size := rsize }
                                match readLogsAux bytes co (offset + rsize) fuel with
                                | .ok rest => .ok (r :: rest)
                                | e => e
                            | _, _ => .ioError
                        | _, _, _ => .ioError
                      else
                        let r : LogRecordData :=
                          { record_type := rt, txn_id := txn, page_id := none,
                            length := none, offset := none, before_img := none,
                            after_img := none, log_offset := offset,
                            record_size := 9 }
                        match readLogsAux bytes co (offset + 9) fuel with
                        | .ok rest => .ok (r :: rest)
                        | e => e
    else .ok []

/-- `read_all_logs` on raw file contents with append offset `co`. -/
def readAllLogsBytes (bytes : List Nat) (co : Nat) : ParseOutcome :=
  readLogsAux bytes co 0 co

structure LogManagerState where
  fileBytes : List Nat
  current_offset : Nat
  record_counts : List (LogRecordType × Nat)
  txn_id_to_first_log_record : List (Nat × Nat)
  deriving DecidableEq, Repr

def LogManagerState.new : LogManagerState :=
  { fileBytes := [], current_offset := 0, record_counts := [],
    txn_id_to_first_log_record := [] }

/-- `record_counts.entry(t).or_insert(0) += 1`. -/
def bumpCount : List (LogRecordType × Nat) → LogRecordType →
    List (LogRecordType × Nat)
  | [], t => [(t, 1)]
  | (t1, n) :: rest, t =>
      if t1 = t then (t1, n + 1) :: rest else (t1, n) :: bumpCount rest t

/-- `write_to_log`: seek to `current_offset`, `write_all`, advance the
offset. The write itself is assumed to succeed (its I/O failure is
environment nondeterminism that no claim here conditions on). -/
def LogManagerState.write_to_log (st : LogManagerState) (data : List Nat) :
    LogManagerState :=
  { st with fileBytes := writeAt st.fileBytes st.current_offset data,
            current_offset := st.current_offset + data.length }

def LogManagerState.read_all_logs (st : LogManagerState) : ParseOutcome :=
  readAllLogsBytes st.fileBytes st.current_offset

def LogManagerState.log_txn_begin (st : LogManagerState) (txn_id : Nat) :
    LogManagerState :=
  let st := st.write_to_log [LogRecordType.BeginRecord.toByte]
  let st := st.write_to_log (u64le txn_id)
  let st := { st with record_counts := bumpCount st.record_counts .BeginRecord }
  { st with
    txn_id_to_first_log_record :=
      aput st.txn_id_to_first_log_record txn_id (st.current_offset - 8 - 1) }

def LogManagerState.log_commit (st : LogManagerState) (txn_id : Nat) :
    LogManagerState :=
  let st := st.write_to_log [LogRecordType.CommitRecord.toByte]
  let st := st.write_to_log (u64le txn_id)
  let st := { st with record_counts := bumpCount st.record_counts .CommitRecord }
  { st with
    txn_id_to_first_log_record := adel st.txn_id_to_first_log_record txn_id }

def LogManagerState.log_update (st : LogManagerState)
    (txn_id page_id length offset : Nat) (before_img after_img : List Nat) :
    LogManagerState :=
  let st := st.write_to_log [LogRecordType.UpdateRecord.toByte]
  let st := st.write_to_log (u64le txn_id)
  let st := st.write_to_log (u64le page_id)
  let st := st.write_to_log (u64le length)
  let st := st.write_to_log (u64le offset)
  let st := st.write_to_log before_img
  let st := st.write_to_log after_img
  { st with record_counts := bumpCount st.record_counts .UpdateRecord }

/-- `log_checkpoint` writes only the one-byte type tag (the transaction id
that every other writer emits, and that `read_all_logs` always reads, is not
written); the `buffer_manager` argument is unused, as in the source. -/
def LogManagerState.log_checkpoint (st : LogManagerState)
    (buffer_manager : BufferManager) : LogManagerState :=
  let st := st.write_to_log [LogRecordType.CheckpointRecord.toByte]
  { st with record_counts := bumpCount st.record_counts .CheckpointRecord }

def LogManagerState.get_total_log_records (st : LogManagerState) : Nat :=
  (st.record_counts.map Prod.snd).sum

def LogManagerState.get_total_log_records_of_type (st : LogManagerState)
    (t : LogRecordType) : Nat :=
  ((st.record_counts.filter (fun kv => kv.1 = t)).map Prod.snd).sum

/-! ### Recovery phases -/

structure AnalysisSets where
  active : List Nat
  committed : List Nat
  aborted : List Nat
  deriving DecidableEq, Repr

/-- `analysis_phase`: forward scan over the parsed records. -/
def analysis_phase (logs : List LogRecordData) : AnalysisSets :=
  logs.foldl (fun sets l =>
    match l.record_type with
    | .BeginRecord => { sets with active := insertSet sets.active l.txn_id }
    | .CommitRecord =>
        { sets with active := removeSet sets.active l.txn_id,
                    committed := insertSet sets.committed l.txn_id }
    | .AbortRecord =>
        { sets with active := removeSet sets.active l.txn_id,
                    aborted := insertSet sets.aborted l.txn_id }
    | _ => sets)
    { active := [], committed := [], aborted := [] }

/-- `redo_phase`: forward scan; every `Update` of a committed or
still-active transaction is re-applied from its after-image. -/
def redoAux (committed active : List Nat) :
    List LogRecordData → BufferManager → RunRes Unit × BufferManager
  | [], bm => (.ok (), bm)
  | l :: rest, bm =>
      if l.record_type = .UpdateRecord ∧
          (l.txn_id ∈ committed ∨ l.txn_id ∈ active) then
        match l.page_id, l.offset, l.after_img, l.length with
        | some pid, some off, some ai, some len =>
            match bm.apply_image pid off len ai with
            | (.ok _, bm1) => redoAux committed active rest bm1
            | (r, bm1) => (r, bm1)
        | _, _, _, _ => redoAux committed active rest bm
      else redoAux committed active rest bm

def redo_phase (logs : List LogRecordData) (committed active : List Nat)
    (bm : BufferManager) : RunRes Unit × BufferManager :=
  redoAux committed active logs bm

/-- `undo_phase`: the records in reverse order. An `Update` of a loser is
undone from its before-image; a `Begin` of a loser executes `break`, which
leaves the whole loop (this function receives `logs.reverse`). -/
def undoAux (losers : List Nat) :
    List LogRecordData → BufferManager → RunRes Unit × BufferManager
  | [], bm => (.ok (), bm)
  | l :: rest, bm =>
      if l.txn_id ∈ losers then
        if l.record_type = .UpdateRecord then
          match l.page_id, l.offset, l.before_img, l.length with
          | some pid, some off, some bi, some len =>
              match bm.apply_image pid off len bi with
              | (.ok _, bm1) => undoAux losers rest bm1
              | (r, bm1) => (r, bm1)
          | _, _, _, _ => undoAux losers rest bm
        else if l.record_type = .BeginRecord then (.ok (), bm)
        else undoAux losers rest bm
      else undoAux losers rest bm

def undo_phase (logs : List LogRecordData) (losers : List Nat)
    (bm : BufferManager) : RunRes Unit × BufferManager :=
  undoAux losers logs.reverse bm

/-- `rollback_txn`: reverse scan for one transaction; its `Begin` stops the
rollback. -/
def rollbackAux (txn_id : Nat) :
    List LogRecordData → BufferManager → RunRes Unit × BufferManager
  | [], bm => (.ok (), bm)
  | l :: rest, bm =>
      if l.txn_id = txn_id then
        if l.record_type = .UpdateRecord then
          match l.page_id, l.offset, l.before_img, l.length with
          | some pid, some off, some bi, some len =>
              match bm.apply_image pid off len bi with
              | (.ok _, bm1) => rollbackAux txn_id rest bm1
              | (r, bm1) => (r, bm1)
          | _, _, _, _ => rollbackAux txn_id rest bm
        else if l.record_type = .BeginRecord then (.ok (), bm)
        else rollbackAux txn_id rest bm
      else rollbackAux txn_id rest bm

def LogManagerState.rollback_txn (lm : LogManagerState) (txn_id : Nat)
    (bm : BufferManager) : RunRes Unit × BufferManager :=
  match lm.read_all_logs with
  | .ioError => (.err .IOError, bm)
  | .panicked => (.panicked, bm)
  | .ok logs => rollbackAux txn_id logs.reverse bm

/-- `log_abort`: append the Abort record, roll the transaction back, then
forget its first-offset entry (skipped when rollback fails, as the `?`
returns early). -/
def LogManagerState.log_abort (lm : LogManagerState) (txn_id : Nat)
    (bm : BufferManager) : RunRes Unit × LogManagerState × BufferManager :=
  let lm1 := lm.write_to_log [LogRecordType.AbortRecord.toByte]
  let lm1 := lm1.write_to_log (u64le txn_id)
  let lm1 := { lm1 with record_counts := bumpCount lm1.record_counts .AbortRecord }
  match lm1.rollback_txn txn_id bm with
  | (.ok _, bm1) =>
      let lm2 := { lm1 with
        txn_id_to_first_log_record := adel lm1.txn_id_to_first_log_record txn_id }
      (.ok (), lm2, bm1)
  | (r, bm1) => (r, lm1, bm1)

/-- `recovery`: analysis, redo, undo. -/
def LogManagerState.recovery (lm : LogManagerState) (bm : BufferManager) :
    RunRes Unit × BufferManager :=
  match lm.read_all_logs with
  | .ioError => (.err .IOError, bm)
  | .panicked => (.panicked, bm)
  | .ok logs =>
      let sets := analysis_phase logs
      match redo_phase logs sets.committed sets.active bm with
      | (.ok _, bm1) =>
          let losers := unionSet sets.active sets.aborted
          undo_phase logs losers bm1
      | (r, bm1) => (r, bm1)

/-! ## Heap segment (`heap/heap_segment.rs`)

`Instant::now()` is modelled by a logical `clock` that ticks at every call;
`last_accessed` stores the tick (the LRU decisions read only the access
queue, never this field, exactly as in the source). The backing file is its
byte contents. The eviction loop of the source can run forever, so it takes
a structural `fuel`; a first component of `none` in an operation's result
means the loop was still running when `fuel` ran out. -/

structure PageInfo where
  page : SlottedPage
  is_dirty : Bool
  last_accessed : Nat
  modifying_txn : Option Nat
  deriving DecidableEq, Repr

structure HeapSegment where
  file : List Nat
  page_size : Nat
  num_slots_per_page : Nat
  pages : List (Nat × PageInfo)
  page_access_order : List Nat
  max_pages_in_memory : Nat
  next_page_id : Nat
  dirty_pages : List Nat
  clock : Nat
  deriving DecidableEq, Repr

def HeapSegment.new (file : List Nat)
    (page_size num_slots_per_page max_pages_in_memory : Nat) : HeapSegment :=
  { file := file, page_size := page_size,
    num_slots_per_page := num_slots_per_page, pages := [],
    page_access_order := [], max_pages_in_memory := max_pages_in_memory,
    next_page_id := 0, dirty_pages := [], clock := 0 }

/-- The `while let Some(page_id) = self.page_access_order.pop_front()` loop
of `evict_page`: dirty or transaction-owned pages are re-queued at the back
and the loop continues; otherwise the popped page is removed from the cache
(a no-op when the queue entry is stale) and the loop returns `Ok`. An empty
queue returns `BufferFull`. `none` = the loop has not returned after `fuel`
iterations. -/
def HeapSegment.evictLoop : Nat → HeapSegment →
    Option (Except BuzzDBError Unit) × HeapSegment
  | 0, hs => (none, hs)
  | fuel + 1, hs =>
      match hs.page_access_order with
      | [] => (some (.error .BufferFull), hs)
      | page_id :: rest =>
          if page_id ∈ hs.dirty_pages then
            HeapSegment.evictLoop fuel
              { hs with page_access_order := rest ++ [page_id] }
          else
            match aget hs.pages page_id with
            | some info =>
                if info.modifying_txn.isSome then
                  HeapSegment.evictLoop fuel
                    { hs with page_access_order := rest ++ [page_id] }
                else
                  (some (.ok ()), { hs with
                    page_access_order := rest,
                    pages := adel hs.pages page_id })
            | none =>
                (some (.ok ()), { hs with
                  page_access_order := rest,
                  pages := adel hs.pages page_id })

/-- `read_page_from_disk`: `file.read` into a `page_size` buffer returns
`min(page_size, file.len - offset)` bytes; zero bytes is `PageNotFound`,
otherwise the bytes read are deserialized. -/
def HeapSegment.read_page_from_disk (hs : HeapSegment) (page_id : Nat) :
    Except BuzzDBError SlottedPage :=
  let chunk := (hs.file.drop (page_id * hs.page_size)).take hs.page_size
  if chunk.length = 0 then .error (.PageNotFound page_id)
  else SlottedPage.deserialize chunk

def HeapSegment.ensure_page_loaded (hs : HeapSegment) (page_id fuel : Nat) :
    Option (Except BuzzDBError Unit) × HeapSegment :=
  if (aget hs.pages page_id).isSome then (some (.ok ()), hs)
  else
    match (if hs.pages.length ≥ hs.max_pages_in_memory
           then HeapSegment.evictLoop fuel hs else (some (.ok ()), hs)) with
    | (none, hs1) => (none, hs1)
    | (some (.error e), hs1) => (some (.error e), hs1)
    | (some (.ok _), hs1) =>
        match hs1.read_page_from_disk page_id with
        | .error e => (some (.error e), hs1)
        | .ok page =>
            let info : PageInfo := { page := page, is_dirty := false,
                                     last_accessed := hs1.clock,
                                     modifying_txn := none }
            (some (.ok ()), { hs1 with
              pages := aput hs1.pages page_id info,
              page_access_order := hs1.page_access_order ++ [page_id],
              clock := hs1.clock + 1 })

def HeapSegment.update_page_access (hs : HeapSegment) (page_id : Nat) :
    HeapSegment :=
  let hs :=
    match aget hs.pages page_id with
    | some info =>
        let info1 := { info with last_accessed := hs.clock }
        { hs with pages := aput hs.pages page_id info1, clock := hs.clock + 1 }
    | none => hs
  if page_id ∈ hs.page_access_order then
    { hs with page_access_order :=
        removeFirst hs.page_access_order page_id ++ [page_id] }
  else hs

def HeapSegment.mark_page_dirty (hs : HeapSegment) (page_id txn_id : Nat) :
    HeapSegment :=
  match aget hs.pages page_id with
  | some info =>
      let info1 := { info with is_dirty := true, modifying_txn := some txn_id }
      { hs with
        pages := aput hs.pages page_id info1,
        dirty_pages := insertSet hs.dirty_pages page_id }
  | none => hs

/-- Writing through the `&mut SlottedPage` that `get_page_mut` returned:
the cached entry still exists whenever the reference does. -/
def HeapSegment.put_page (hs : HeapSegment) (page_id : Nat)
    (page : SlottedPage) : HeapSegment :=
  match aget hs.pages page_id with
  | some info =>
      let info1 := { info with page := page }
      { hs with pages := aput hs.pages page_id info1 }
  | none => hs

def HeapSegment.cache_page (hs : HeapSegment) (page_id : Nat)
    (page : SlottedPage) (txn_id fuel : Nat) :
    Option (Except BuzzDBError Unit) × HeapSegment :=
  match (if hs.pages.length ≥ hs.max_pages_in_memory
         then HeapSegment.evictLoop fuel hs else (some (.ok ()), hs)) with
  | (none, hs1) => (none, hs1)
  | (some (.error e), hs1) => (some (.error e), hs1)
  | (some (.ok _), hs1) =>
      let info : PageInfo := { page := page, is_dirty := true,
                               last_accessed := hs1.clock,
                               modifying_txn := some txn_id }
      (some (.ok ()), { hs1 with
        pages := aput hs1.pages page_id info,
        page_access_order := hs1.page_access_order ++ [page_id],
        dirty_pages := insertSet hs1.dirty_pages page_id,
        clock := hs1.clock + 1 })

def HeapSegment.allocate_page (hs : HeapSegment) (txn_id fuel : Nat) :
    Option (Except BuzzDBError Nat) × HeapSegment :=
  let page_id := hs.next_page_id
  let hs := { hs with next_page_id := hs.next_page_id + 1 }
  let new_page := SlottedPage.new page_id hs.num_slots_per_page
  let serialized := new_page.serialize
  if serialized.length > hs.page_size then
    (some (.error (.PageSizeExceeded serialized.length hs.page_size)), hs)
  else
    let hs := { hs with file := writeAt hs.file (page_id * hs.page_size) serialized }
    match hs.cache_page page_id new_page txn_id fuel with
    | (some (.ok _), hs1) => (some (.ok page_id), hs1)
    | (some (.error e), hs1) => (some (.error e), hs1)
    | (none, hs1) => (none, hs1)

def HeapSegment.get_page (hs : HeapSegment) (page_id fuel : Nat) :
    Option (Except BuzzDBError SlottedPage) × HeapSegment :=
  match hs.ensure_page_loaded page_id fuel with
  | (none, hs1) => (none, hs1)
  | (some (.error e), hs1) => (some (.error e), hs1)
  | (some (.ok _), hs1) =>
      let hs2 := hs1.update_page_access page_id
      match aget hs2.pages page_id with
      | some info => (some (.ok info.page), hs2)
      | none => (some (.error (.PageNotFound page_id)), hs2)

def HeapSegment.get_page_mut (hs : HeapSegment) (page_id txn_id fuel : Nat) :
    Option (Except BuzzDBError SlottedPage) × HeapSegment :=
  match hs.ensure_page_loaded page_id fuel with
  | (none, hs1) => (none, hs1)
  | (some (.error e), hs1) => (some (.error e), hs1)
  | (some (.ok _), hs1) =>
      match aget hs1.pages page_id with
      | none => (some (.error (.PageNotFound page_id)), hs1)
      | some info =>
          match info.modifying_txn with
          | some other =>
              if other ≠ txn_id then
                (some (.error (.Other "Page is being modified by another transaction")),
                 hs1)
              else
                let hs2 := hs1.update_page_access page_id
                let hs3 := hs2.mark_page_dirty page_id txn_id
                (some (.ok info.page), hs3)
          | none =>
              let hs2 := hs1.update_page_access page_id
              let hs3 := hs2.mark_page_dirty page_id txn_id
              (some (.ok info.page), hs3)

def HeapSegment.insert_record (hs : HeapSegment)
    (page_id record_id txn_id fuel : Nat) :
    Option (Except BuzzDBError Nat) × HeapSegment :=
  match hs.get_page_mut page_id txn_id fuel with
  | (none, hs1) => (none, hs1)
  | (some (.error e), hs1) => (some (.error e), hs1)
  | (some (.ok page), hs1) =>
      match page.allocate_slot record_id with
      | (some slot_index, page1) =>
          (some (.ok slot_index), hs1.put_page page_id page1)
      | (none, _) => (some (.error (.PageFull page_id)), hs1)

def HeapSegment.delete_record (hs : HeapSegment)
    (page_id slot_index txn_id fuel : Nat) :
    Option (Except BuzzDBError Unit) × HeapSegment :=
  match hs.get_page_mut page_id txn_id fuel with
  | (none, hs1) => (none, hs1)
  | (some (.error e), hs1) => (some (.error e), hs1)
  | (some (.ok page), hs1) =>
      match page.deallocate_slot slot_index with
      | (.ok _, page1) => (some (.ok ()), hs1.put_page page_id page1)
      | (.error e, _) => (some (.error e), hs1)

def HeapSegment.get_record (hs : HeapSegment) (page_id slot_index fuel : Nat) :
    Option (Except BuzzDBError Nat) × HeapSegment :=
  match hs.get_page page_id fuel with
  | (none, hs1) => (none, hs1)
  | (some (.error e), hs1) => (some (.error e), hs1)
  | (some (.ok page), hs1) => (some (page.get_record_id slot_index), hs1)

/-- The write loop shared by `commit_transaction` (which also clears the
owner and dirty marks per page) and `flush` (which clears only the dirty
flag). `clear_owner` distinguishes the two. -/
def heapWriteLoop (clear_owner : Bool) :
    List (Nat × List Nat) → HeapSegment → Except BuzzDBError Unit × HeapSegment
  | [], hs => (.ok (), hs)
  | (page_id, serialized) :: rest, hs =>
      if serialized.length > hs.page_size then
        (.error (.PageSizeExceeded serialized.length hs.page_size), hs)
      else
        let hs := { hs with file := writeAt hs.file (page_id * hs.page_size) serialized }
        let hs :=
          match aget hs.pages page_id with
          | some info =>
              let info1 :=
                if clear_owner then
                  { info with modifying_txn := none, is_dirty := false }
                else { info with is_dirty := false }
              { hs with pages := aput hs.pages page_id info1 }
          | none => hs
        let hs := if clear_owner then
            { hs with dirty_pages := removeSet hs.dirty_pages page_id }
          else hs
        heapWriteLoop clear_owner rest hs

def HeapSegment.commit_transaction (hs : HeapSegment) (txn_id : Nat) :
    Except BuzzDBError Unit × HeapSegment :=
  let pages_to_write :=
    (hs.pages.filter (fun kv => kv.2.modifying_txn = some txn_id)).map
      (fun kv => (kv.1, kv.2.page.serialize))
  heapWriteLoop true pages_to_write hs

/-- The reload loop of `abort_transaction`: each page the transaction was
modifying is dropped from the cache and re-read from disk. -/
def abortReloadLoop (fuel : Nat) :
    List Nat → HeapSegment → Option (Except BuzzDBError Unit) × HeapSegment
  | [], hs => (some (.ok ()), hs)
  | page_id :: rest, hs =>
      let hs1 := { hs with pages := adel hs.pages page_id }
      match hs1.ensure_page_loaded page_id fuel with
      | (some (.ok _), hs2) => abortReloadLoop fuel rest hs2
      | r => r

def HeapSegment.abort_transaction (hs : HeapSegment) (txn_id fuel : Nat) :
    Option (Except BuzzDBError Unit) × HeapSegment :=
  let modified :=
    akeys (hs.pages.filter (fun kv => kv.2.modifying_txn = some txn_id))
  abortReloadLoop fuel modified hs

def HeapSegment.flush (hs : HeapSegment) : Except BuzzDBError Unit × HeapSegment :=
  let pages_to_write :=
    (hs.dirty_pages.filterMap (fun page_id =>
      (aget hs.pages page_id).map (fun info => (page_id, info.page.serialize))))
  match heapWriteLoop false pages_to_write hs with
  | (.ok _, hs1) => (.ok (), { hs1 with dirty_pages := [] })
  | (.error e, hs1) => (.error e, hs1)

/-- One public heap-segment call, with the eviction fuel it may consume. -/
inductive HeapOp where
  | allocate (txn_id fuel : Nat)
  | getPage (page_id fuel : Nat)
  | getPageMut (page_id txn_id fuel : Nat)
  | insertRecord (page_id record_id txn_id fuel : Nat)
  | deleteRecord (page_id slot_index txn_id fuel : Nat)
  | getRecord (page_id slot_index fuel : Nat)
  | commitTxn (txn_id : Nat)
  | abortTxn (txn_id fuel : Nat)
  | flushSegment
  deriving DecidableEq, Repr

/-- The state a public operation leaves behind (also on error or when the
eviction loop is cut off by its fuel). -/
def applyHeapOp (hs : HeapSegment) : HeapOp → HeapSegment
  | .allocate txn_id fuel => (hs.allocate_page txn_id fuel).2
  | .getPage page_id fuel => (hs.get_page page_id fuel).2
  | .getPageMut page_id txn_id fuel => (hs.get_page_mut page_id txn_id fuel).2
  | .insertRecord page_id record_id txn_id fuel =>
      (hs.insert_record page_id record_id txn_id fuel).2
  | .deleteRecord page_id slot_index txn_id fuel =>
      (hs.delete_record page_id slot_index txn_id fuel).2
  | .getRecord page_id slot_index fuel => (hs.get_record page_id slot_index fuel).2
  | .commitTxn txn_id => (hs.commit_transaction txn_id).2
  | .abortTxn txn_id fuel => (hs.abort_transaction txn_id fuel).2
  | .flushSegment => hs.flush.2

def runHeapOps (hs : HeapSegment) : List HeapOp → HeapSegment
  | [] => hs
  | op :: ops => runHeapOps (applyHeapOp hs op) ops

/-! ## Transaction manager (`transaction/transaction.rs`) -/

structure Transaction where
  id : Nat
  started : Bool
  modified_pages : List Nat
  locked_pages : List Nat
  deriving DecidableEq, Repr

def Transaction.new (id : Nat) : Transaction :=
  { id := id, started := true, modified_pages := [], locked_pages := [] }

structure TransactionManager where
  next_txn_id : Nat
  active_transactions : List (Nat × Transaction)
  page_locks : List (Nat × Nat)
  log_manager : LogManagerState
  buffer_manager : BufferManager
  deriving DecidableEq, Repr

def TransactionManager.new (log_manager : LogManagerState)
    (buffer_manager : BufferManager) : TransactionManager :=
  { next_txn_id := 0, active_transactions := [], page_locks := [],
    log_manager := log_manager, buffer_manager := buffer_manager }

def TransactionManager.start_txn (tm : TransactionManager) :
    Nat × TransactionManager :=
  let txn_id := tm.next_txn_id
  let tm := { tm with next_txn_id := tm.next_txn_id + 1 }
  let tm := { tm with
    active_transactions := aput tm.active_transactions txn_id (Transaction.new txn_id) }
  (txn_id, { tm with log_manager := tm.log_manager.log_txn_begin txn_id })

def TransactionManager.add_modified_page (tm : TransactionManager)
    (txn_id page_id : Nat) : Except BuzzDBError Unit × TransactionManager :=
  match aget tm.page_locks page_id with
  | some lock_holder =>
      if lock_holder ≠ txn_id then
        (.error (.Other "Page is locked by another transaction"), tm)
      else addModifiedPageLocked tm txn_id page_id
  | none => addModifiedPageLocked tm txn_id page_id
where
  addModifiedPageLocked (tm : TransactionManager) (txn_id page_id : Nat) :
      Except BuzzDBError Unit × TransactionManager :=
    match aget tm.active_transactions txn_id with
    | some txn =>
        let txn1 := { txn with
          locked_pages := insertSet txn.locked_pages page_id,
          modified_pages := insertSet txn.modified_pages page_id }
        (.ok (), { tm with
          page_locks := aput tm.page_locks page_id txn_id,
          active_transactions := aput tm.active_transactions txn_id txn1 })
    | none => (.error (.Other "Transaction not found"), tm)

/-- The `for page_id in &txn.modified_pages { flush_page(page_id)? }` loop of
`commit_txn`, over a supplied flush function. -/
def flushLoop (flush : BufferManager → Nat → Except BuzzDBError Unit × BufferManager) :
    List Nat → BufferManager → Except BuzzDBError Unit × BufferManager
  | [], bm => (.ok (), bm)
  | p :: ps, bm =>
      match flush bm p with
      | (.ok _, bm1) => flushLoop flush ps bm1
      | (.error e, bm1) => (.error e, bm1)

/-- `for page_id in &txn.locked_pages { self.page_locks.remove(page_id) }`. -/
def releaseLocks (locks : List (Nat × Nat)) : List Nat → List (Nat × Nat)
  | [] => locks
  | p :: ps => releaseLocks (adel locks p) ps

/-- `commit_txn`, generic in the page-flush function it calls on each
modified page. The source calls `BufferManager::flush_page` there (which
never fails, see `flush_page` above); the parameter lets the flush-failure
path of the source's control flow be stated non-vacuously. -/
def TransactionManager.commit_txn_with
    (flush : BufferManager → Nat → Except BuzzDBError Unit × BufferManager)
    (tm : TransactionManager) (txn_id : Nat) :
    Except BuzzDBError Unit × TransactionManager :=
  match aget tm.active_transactions txn_id with
  | none => (.error (.Other "Transaction not found"), tm)
  | some txn =>
      let tm1 := { tm with
        active_transactions := adel tm.active_transactions txn_id }
      match flushLoop flush txn.modified_pages tm1.buffer_manager with
      | (.error e, bm1) => (.error e, { tm1 with buffer_manager := bm1 })
      | (.ok _, bm1) =>
          let tm2 := { tm1 with
            buffer_manager := bm1,
            page_locks := releaseLocks tm1.page_locks txn.locked_pages }
          (.ok (), { tm2 with log_manager := tm2.log_manager.log_commit txn_id })

/-- `commit_txn` as the source has it. -/
def TransactionManager.commit_txn (tm : TransactionManager) (txn_id : Nat) :
    Except BuzzDBError Unit × TransactionManager :=
  TransactionManager.commit_txn_with BufferManager.flush_page tm txn_id

/-- `for page_id in &txn.modified_pages { discard_page(page_id)? }`. -/
def discardLoop : List Nat → BufferManager → Except BuzzDBError Unit × BufferManager
  | [], bm => (.ok (), bm)
  | p :: ps, bm =>
      match bm.discard_page p with
      | (.ok _, bm1) => discardLoop ps bm1
      | (.error e, bm1) => (.error e, bm1)

/-- `abort_txn`: the transaction is removed from the active table first;
page discards, lock release and `log_abort` (which performs the log-driven
rollback) follow, each early-returning on failure. -/
def TransactionManager.abort_txn (tm : TransactionManager) (txn_id : Nat) :
    RunRes Unit × TransactionManager :=
  match aget tm.active_transactions txn_id with
  | none => (.err (.Other "Transaction not found"), tm)
  | some txn =>
      let tm1 := { tm with
        active_transactions := adel tm.active_transactions txn_id }
      match discardLoop txn.modified_pages tm1.buffer_manager with
      | (.error e, bm1) => (.err e, { tm1 with buffer_manager := bm1 })
      | (.ok _, bm1) =>
          let tm2 := { tm1 with
            buffer_manager := bm1,
            page_locks := releaseLocks tm1.page_locks txn.locked_pages }
          match tm2.log_manager.log_abort txn_id tm2.buffer_manager with
          | (r, lm1, bm2) =>
              (r, { tm2 with log_manager := lm1, buffer_manager := bm2 })

end Aries

namespace Aries

/-! ## Serialization lemmas -/

theorem leBytes_length (k n : Nat) : (leBytes k n).length = k := by
  induction k generalizing n with
  | zero => rfl
  | succ k ih => simp [leBytes, ih]

theorem leVal_leBytes (k n : Nat) (h : n < 256 ^ k) :
    leVal (leBytes k n) = n := by
  induction k generalizing n with
  | zero => simp at h; simp [h, leBytes, leVal]
  | succ k ih =>
      have hpow : 256 ^ (k + 1) = 256 * 256 ^ k := by ring
      rw [hpow] at h
      have hdiv : n / 256 < 256 ^ k := by
        generalize 256 ^ k = M at *
        omega
      simp only [leBytes, leVal, List.foldr_cons]
      have := ih (n / 256) hdiv
      simp only [leVal] at this
      rw [this]
      omega

theorem du64_append (n : Nat) (rest : List Nat) (h : n < 2 ^ 64) :
    du64 (u64le n ++ rest) = some (n, rest) := by
  have hlen : (u64le n).length = 8 := leBytes_length 8 n
  have h8 : 8 ≤ (u64le n ++ rest).length := by simp [hlen]
  simp only [du64, if_pos h8]
  rw [List.take_append_of_le_length (by omega), List.drop_append_of_le_length (by omega)]
  have htake : (u64le n).take 8 = u64le n := by
    rw [List.take_of_length_le (by omega)]
  have hdrop : (u64le n).drop 8 = [] := by
    rw [List.drop_of_length_le (by omega)]
  rw [htake, hdrop]
  have hv : leVal (u64le n) = n := leVal_leBytes 8 n (by norm_num at h ⊢; omega)
  simp [hv]

theorem dslot_enc (s : Option Nat) (rest : List Nat)
    (h : ∀ v, s = some v → v < 2 ^ 64) :
    dslot (encSlot s ++ rest) = some (s, rest) := by
  cases s with
  | none => simp [encSlot, dslot]
  | some v =>
      have hv : v < 2 ^ 64 := h v rfl
      simp [encSlot, dslot, du64_append v rest hv]

theorem dslots_enc (slots : List (Option Nat)) (rest : List Nat)
    (h : ∀ v, some v ∈ slots → v < 2 ^ 64) :
    dslots slots.length ((slots.map encSlot).flatten ++ rest) =
      some (slots, rest) := by
  induction slots with
  | nil => simp [dslots]
  | cons s ss ih =>
      have hs : ∀ v, s = some v → v < 2 ^ 64 := by
        intro v hv; exact h v (by simp [hv])
      have hss : ∀ v, some v ∈ ss → v < 2 ^ 64 := by
        intro v hv; exact h v (by simp [hv])
      simp only [List.map_cons, List.flatten_cons, List.length_cons, dslots,
        List.append_assoc]
      rw [dslot_enc s _ hs]
      simp [ih hss]

/-- C6. For every `SlottedPage` whose numeric fields fit in `u64` (as every
Rust value does by construction), `deserialize (serialize p)` succeeds and
returns `p`. -/
theorem c6_slotted_page_roundtrip (p : SlottedPage)
    (h1 : p.page_id < 2 ^ 64) (h2 : p.slots.length < 2 ^ 64)
    (h3 : ∀ v, some v ∈ p.slots → v < 2 ^ 64) :
    SlottedPage.deserialize p.serialize = .ok p := by
  simp only [SlottedPage.serialize, SlottedPage.deserialize, List.append_assoc]
  rw [du64_append p.page_id _ h1]
  simp only []
  rw [du64_append p.slots.length _ h2]
  simp only []
  have := dslots_enc p.slots [] h3
  rw [List.append_nil] at this
  rw [this]

/-- Witness for C6 at the concrete page `⟨3, [some 7, none]⟩`. -/
theorem c6_slotted_page_roundtrip_witness :
    SlottedPage.deserialize (SlottedPage.serialize ⟨3, [some 7, none]⟩) =
      .ok ⟨3, [some 7, none]⟩ :=
  c6_slotted_page_roundtrip ⟨3, [some 7, none]⟩ (by norm_num) (by norm_num)
    (by intro v hv; simp at hv; omega)

end Aries

namespace Aries

/-! ## Concrete states used by the scenario claims -/

/-- Pool of capacity 2 with `PageID 1` and `PageID 2` fixed and not
unfixed (spec scenario S1). -/
def c7TwoPinned : BufferManager :=
  (((BufferManager.new 4096 2).fix_page 1 false).2.fix_page 2 false).2

/-- C7. At capacity with every frame pinned, `fix_page(PageID 3, false)`
fails with `BufferFull`; after `unfix_page` of the first frame with
`is_dirty = false`, `fix_page(PageID 3, false)` succeeds. -/
theorem c7_buffer_eviction_at_capacity :
    (c7TwoPinned.fix_page 3 false).1 = .error .BufferFull ∧
    ((((c7TwoPinned.fix_page 3 false).2.unfix_page 1 false).2).fix_page 3 false).1 =
      .ok () := by
  constructor <;> rfl

/-- A dirty resident page on which `flush_page` was called: fix `PageID 1`
exclusive, unfix dirty, flush. -/
def c4DirtyFlushed : BufferManager :=
  ((((BufferManager.new 4096 2).fix_page 1 true).2.unfix_page 1 true).2.flush_page 1).2

/-- C4 (code evaluation). `flush_page` returns `Ok` with the pool state
completely unchanged — the `frame.set_dirty(false)` line of the source is
commented out — so after flushing the dirty resident `PageID 1` its frame
is still dirty, contradicting the claim that a successful `flush_page`
clears the dirty flag. -/
theorem c4_flush_page_keeps_dirty_flag :
    (∀ (bm : BufferManager) (page_id : Nat),
      bm.flush_page page_id = (.ok (), bm)) ∧
    (aget c4DirtyFlushed.frames 1).map BufferFrame.is_dirty = some true := by
  constructor
  · intro bm page_id
    rcases h : aget bm.frames page_id with _ | fr <;>
      simp [BufferManager.flush_page, h]
  · rfl

/-- C2 (code evaluation). `log_checkpoint` on a fresh log writes exactly one
byte (the type tag `4`, with no transaction id), and `read_all_logs` on the
resulting log fails with an I/O error instead of parsing the checkpoint
back: the checkpoint record is 1 byte, not 9, and does not round-trip. -/
theorem c2_checkpoint_is_one_byte_and_unparsable :
    (LogManagerState.new.log_checkpoint (BufferManager.new 4096 10)).fileBytes = [4] ∧
    (LogManagerState.new.log_checkpoint (BufferManager.new 4096 10)).read_all_logs =
      .ioError := by
  constructor <;> rfl

/-- C8 counterexample. On the 9-byte record whose type byte is `5`, the log
parser panics (the `panic!` arm of `From<u8> for LogRecordType`) instead of
returning an error value, so the parse is not total and no
`DeserializationError` is produced. -/
theorem c8_counterexample_tag_five_panics :
    readAllLogsBytes [5, 0, 0, 0, 0, 0, 0, 0, 0] 9 = .panicked := by rfl

theorem fromByte_ge_five (k : Nat) : LogRecordType.fromByte (k + 5) = none := rfl

/-- C8 amended. On any log whose first record has a type byte outside
`0..=4`, parsing panics (it does not return an error value); this is the
behavior of `read_all_logs` as called by recovery, rollback and `log_abort`. -/
theorem c8_parse_panics_on_bad_type_byte (b : Nat) (rest : List Nat) (co : Nat)
    (hb : 5 ≤ b) (hco : 0 < co) :
    readAllLogsBytes (b :: rest) co = .panicked := by
  obtain ⟨k, rfl⟩ : ∃ k, b = k + 5 := ⟨b - 5, by omega⟩
  obtain ⟨m, rfl⟩ : ∃ m, co = m + 1 := ⟨co - 1, by omega⟩
  simp [readAllLogsBytes, readLogsAux, readExact, fromByte_ge_five]

/-- Witness for C8 at type byte 7 on a one-byte log. -/
theorem c8_parse_panics_witness : readAllLogsBytes [7] 1 = .panicked :=
  c8_parse_panics_on_bad_type_byte 7 [] 1 (by norm_num) (by norm_num)

/-- The crash log of C1: `Begin(1)`, `Update(1, page 0, len 1, off 0,
before [7], after [8])`, `Begin(2)`, `Update(2, page 0, len 1, off 1,
before [9], after [10])`; neither transaction commits, so both are losers. -/
def c1Log : LogManagerState :=
  (((LogManagerState.new.log_txn_begin 1).log_update 1 0 1 0 [7] [8]).log_txn_begin
      2).log_update 2 0 1 1 [9] [10]

/-- C1 (code evaluation). Running recovery on the C1 crash log: redo leaves
page 0 as `[8, 10, 0, 0]`; the undo reverse scan undoes transaction 2's
update (byte 1 back to 9) and then hits `Begin(2)`, whose `break` leaves
the whole undo loop, so transaction 1's update is never undone: byte 0
stays at the after-image 8 instead of the before-image 7 that the claim
requires for every loser update. -/
theorem c1_undo_stops_at_first_loser_begin :
    c1Log.recovery (BufferManager.new 4 10) =
      (.ok (), { frames := [(0, { page_id := 0, data := [8, 9, 0, 0],
                                  is_dirty := true, pin_count := 0 })],
                 page_size := 4, capacity := 10 }) := by
  rfl

/-- A heap segment whose single cached page (`PageID 0`) is in the dirty
set: the eviction loop pops it, re-queues it, and is back in the same
state. -/
def c3StuckSegment : HeapSegment :=
  { file := [], page_size := 32, num_slots_per_page := 1,
    pages := [(0, { page := SlottedPage.new 0 1, is_dirty := true,
                    last_accessed := 0, modifying_txn := none })],
    page_access_order := [0], max_pages_in_memory := 1, next_page_id := 1,
    dirty_pages := [0], clock := 1 }

/-- The same segment with `PageID 0` clean and unowned. -/
def c3CleanSegment : HeapSegment := { c3StuckSegment with dirty_pages := [] }

/-- C3 (code evaluation). When the only cached page is in the dirty set,
the eviction loop of `evict_page` never returns — for every iteration bound
it is still running, so the `BufferFull` return after the loop is
unreachable — while on a clean, unowned candidate it evicts that page and
returns `Ok` in one step. -/
theorem c3_evict_loop_never_returns_when_all_dirty :
    (∀ fuel, (HeapSegment.evictLoop fuel c3StuckSegment).1 = none) ∧
    HeapSegment.evictLoop 1 c3CleanSegment =
      (some (.ok ()),
       { c3CleanSegment with pages := [], page_access_order := [] }) := by
  constructor
  · intro fuel
    induction fuel with
    | zero => rfl
    | succ fuel ih =>
        have h : HeapSegment.evictLoop (fuel + 1) c3StuckSegment =
            HeapSegment.evictLoop fuel c3StuckSegment := rfl
        rw [h]
        exact ih
  · rfl

end Aries

namespace Aries

/-! ## C5: the LRU-queue / cache-key invariant of the heap segment -/

theorem akeys_nil {α : Type} : akeys ([] : List (Nat × α)) = [] := rfl

theorem akeys_cons {α : Type} (kv : Nat × α) (l : List (Nat × α)) :
    akeys (kv :: l) = kv.1 :: akeys l := rfl

theorem mem_akeys_adel {α : Type} (m : List (Nat × α)) (k p : Nat)
    (h : p ∈ akeys (adel m k)) : p ∈ akeys m ∧ p ≠ k := by
  induction m with
  | nil => simp [adel, akeys_nil] at h
  | cons kv rest ih =>
      rcases kv with ⟨k1, v1⟩
      simp only [adel] at h
      by_cases hk : k1 = k
      · rw [if_pos hk] at h
        have h2 := ih h
        exact ⟨by rw [akeys_cons, List.mem_cons]; exact Or.inr h2.1, h2.2⟩
      · rw [if_neg hk] at h
        rw [akeys_cons, List.mem_cons] at h
        rcases h with h | h
        · refine ⟨by rw [akeys_cons, List.mem_cons]; exact Or.inl h, ?_⟩
          simpa [h] using hk
        · have h2 := ih h
          exact ⟨by rw [akeys_cons, List.mem_cons]; exact Or.inr h2.1, h2.2⟩

theorem mem_akeys_aput {α : Type} (m : List (Nat × α)) (k p : Nat) (v : α)
    (h : p ∈ akeys (aput m k v)) : p = k ∨ p ∈ akeys m := by
  induction m with
  | nil =>
      simp only [aput, akeys_cons, akeys_nil, List.mem_cons] at h
      exact Or.inl (by simpa using h)
  | cons kv rest ih =>
      rcases kv with ⟨k1, v1⟩
      simp only [aput] at h
      by_cases hk : k1 = k
      · rw [if_pos hk] at h
        rw [akeys_cons, List.mem_cons] at h
        rcases h with h | h
        · exact Or.inr (by rw [akeys_cons, List.mem_cons]; exact Or.inl h)
        · exact Or.inr (by rw [akeys_cons, List.mem_cons]; exact Or.inr h)
      · rw [if_neg hk] at h
        rw [akeys_cons, List.mem_cons] at h
        rcases h with h | h
        · exact Or.inr (by rw [akeys_cons, List.mem_cons]; exact Or.inl h)
        · rcases ih h with h1 | h1
          · exact Or.inl h1
          · exact Or.inr (by rw [akeys_cons, List.mem_cons]; exact Or.inr h1)

theorem aget_some_mem_akeys {α : Type} (m : List (Nat × α)) (k : Nat) (v : α)
    (h : aget m k = some v) : k ∈ akeys m := by
  induction m with
  | nil => simp [aget] at h
  | cons kv rest ih =>
      rcases kv with ⟨k1, v1⟩
      simp only [aget] at h
      by_cases hk : k1 = k
      · rw [akeys_cons, List.mem_cons]
        exact Or.inl hk.symm
      · rw [if_neg hk] at h
        rw [akeys_cons, List.mem_cons]
        exact Or.inr (ih h)

theorem mem_removeFirst (q : List Nat) (x p : Nat) (hp : p ∈ q) (hne : p ≠ x) :
    p ∈ removeFirst q x := by
  induction q with
  | nil => simp at hp
  | cons y rest ih =>
      simp only [removeFirst]
      by_cases hy : y = x
      · rw [if_pos hy]
        rcases List.mem_cons.mp hp with h | h
        · exact absurd (h.trans hy) hne
        · exact h
      · rw [if_neg hy]
        rcases List.mem_cons.mp hp with h | h
        · simp [h]
        · simp [ih h]

/-- Every key of a page map is in a queue. -/
def keysSub (pages : List (Nat × PageInfo)) (q : List Nat) : Prop :=
  ∀ p, p ∈ akeys pages → p ∈ q

/-- The amended C5 invariant: every key of the in-memory page cache is in
the LRU access-order queue (the queue may also hold stale entries). -/
def cacheSubLRU (hs : HeapSegment) : Prop :=
  keysSub hs.pages hs.page_access_order

theorem keysSub_rotate (m : List (Nat × PageInfo)) (k : Nat) (rest : List Nat)
    (h : keysSub m (k :: rest)) : keysSub m (rest ++ [k]) := by
  intro p hp
  have h1 := h p hp
  rw [List.mem_cons] at h1
  rw [List.mem_append, List.mem_singleton]
  tauto

theorem keysSub_adel_head (m : List (Nat × PageInfo)) (k : Nat)
    (rest : List Nat) (h : keysSub m (k :: rest)) :
    keysSub (adel m k) rest := by
  intro p hp
  have h2 := mem_akeys_adel m k p hp
  have h1 := h p h2.1
  rw [List.mem_cons] at h1
  tauto

theorem keysSub_adel (m : List (Nat × PageInfo)) (k : Nat) (q : List Nat)
    (h : keysSub m q) : keysSub (adel m k) q :=
  fun p hp => h p (mem_akeys_adel m k p hp).1

theorem keysSub_aput_append (m : List (Nat × PageInfo)) (k : Nat)
    (v : PageInfo) (q : List Nat) (h : keysSub m q) :
    keysSub (aput m k v) (q ++ [k]) := by
  intro p hp
  rw [List.mem_append, List.mem_singleton]
  rcases mem_akeys_aput m k p v hp with h1 | h1
  · exact Or.inr h1
  · exact Or.inl (h p h1)

theorem keysSub_aput_resident (m : List (Nat × PageInfo)) (k : Nat)
    (v w : PageInfo) (q : List Nat) (h : keysSub m q)
    (hres : aget m k = some w) : keysSub (aput m k v) q := by
  intro p hp
  rcases mem_akeys_aput m k p v hp with h1 | h1
  · subst h1
    exact h p (aget_some_mem_akeys m p w hres)
  · exact h p h1

theorem keysSub_removeFirst (m : List (Nat × PageInfo)) (k : Nat)
    (q : List Nat) (h : keysSub m q) :
    keysSub m (removeFirst q k ++ [k]) := by
  intro p hp
  rw [List.mem_append, List.mem_singleton]
  by_cases hpk : p = k
  · exact Or.inr hpk
  · exact Or.inl (mem_removeFirst q k p (h p hp) hpk)

theorem evictLoop_inv (fuel : Nat) (hs : HeapSegment) (h : cacheSubLRU hs) :
    cacheSubLRU (HeapSegment.evictLoop fuel hs).2 := by
  induction fuel generalizing hs with
  | zero => exact h
  | succ fuel ih =>
      rw [HeapSegment.evictLoop]
      rcases hq : hs.page_access_order with _ | ⟨pid, rest⟩
      · exact h
      · have hsub : keysSub hs.pages (pid :: rest) := hq ▸ h
        dsimp only []
        by_cases hd : pid ∈ hs.dirty_pages
        · rw [if_pos hd]
          exact ih _ (keysSub_rotate _ _ _ hsub)
        · rw [if_neg hd]
          rcases aget hs.pages pid with _ | info
          · exact keysSub_adel_head _ _ _ hsub
          · dsimp only []
            by_cases ho : info.modifying_txn.isSome
            · rw [if_pos ho]
              exact ih _ (keysSub_rotate _ _ _ hsub)
            · rw [if_neg ho]
              exact keysSub_adel_head _ _ _ hsub

theorem ensure_page_loaded_inv (hs : HeapSegment) (page_id fuel : Nat)
    (h : cacheSubLRU hs) :
    cacheSubLRU (hs.ensure_page_loaded page_id fuel).2 := by
  rw [HeapSegment.ensure_page_loaded]
  by_cases hin : (aget hs.pages page_id).isSome
  · rw [if_pos hin]; exact h
  · rw [if_neg hin]
    have hev : cacheSubLRU ((if hs.pages.length ≥ hs.max_pages_in_memory
        then HeapSegment.evictLoop fuel hs else (some (.ok ()), hs))).2 := by
      split
      · exact evictLoop_inv fuel hs h
      · exact h
    rcases heq : (if hs.pages.length ≥ hs.max_pages_in_memory
        then HeapSegment.evictLoop fuel hs else (some (.ok ()), hs)) with ⟨ro, hs1⟩
    rw [heq] at hev
    rcases ro with _ | e
    · exact hev
    · rcases e with e | u
      · exact hev
      · dsimp only []
        rcases hs1.read_page_from_disk page_id with e | page
        · exact hev
        · exact keysSub_aput_append _ _ _ _ hev

theorem cache_page_inv (hs : HeapSegment) (page_id : Nat) (page : SlottedPage)
    (txn_id fuel : Nat) (h : cacheSubLRU hs) :
    cacheSubLRU (hs.cache_page page_id page txn_id fuel).2 := by
  rw [HeapSegment.cache_page]
  have hev : cacheSubLRU ((if hs.pages.length ≥ hs.max_pages_in_memory
      then HeapSegment.evictLoop fuel hs else (some (.ok ()), hs))).2 := by
    split
    · exact evictLoop_inv fuel hs h
    · exact h
  rcases heq : (if hs.pages.length ≥ hs.max_pages_in_memory
      then HeapSegment.evictLoop fuel hs else (some (.ok ()), hs)) with ⟨ro, hs1⟩
  rw [heq] at hev
  rcases ro with _ | e
  · exact hev
  · rcases e with e | u
    · exact hev
    · exact keysSub_aput_append _ _ _ _ hev

theorem update_page_access_inv (hs : HeapSegment) (page_id : Nat)
    (h : cacheSubLRU hs) :
    cacheSubLRU (hs.update_page_access page_id) := by
  rw [HeapSegment.update_page_access]
  have h1 : cacheSubLRU (match aget hs.pages page_id with
      | some info =>
          let info1 := { info with last_accessed := hs.clock }
          { hs with pages := aput hs.pages page_id info1, clock := hs.clock + 1 }
      | none => hs) := by
    rcases hg : aget hs.pages page_id with _ | info
    · exact h
    · exact keysSub_aput_resident _ _ _ _ _ h hg
  split
  · exact keysSub_removeFirst _ _ _ h1
  · exact h1

theorem mark_page_dirty_inv (hs : HeapSegment) (page_id txn_id : Nat)
    (h : cacheSubLRU hs) :
    cacheSubLRU (hs.mark_page_dirty page_id txn_id) := by
  rw [HeapSegment.mark_page_dirty]
  rcases hg : aget hs.pages page_id with _ | info
  · exact h
  · exact keysSub_aput_resident _ _ _ _ _ h hg

theorem put_page_inv (hs : HeapSegment) (page_id : Nat) (page : SlottedPage)
    (h : cacheSubLRU hs) :
    cacheSubLRU (hs.put_page page_id page) := by
  rw [HeapSegment.put_page]
  rcases hg : aget hs.pages page_id with _ | info
  · exact h
  · exact keysSub_aput_resident _ _ _ _ _ h hg

theorem heapWriteLoop_inv (clear_owner : Bool) (ps : List (Nat × List Nat))
    (hs : HeapSegment) (h : cacheSubLRU hs) :
    cacheSubLRU (heapWriteLoop clear_owner ps hs).2 := by
  induction ps generalizing hs with
  | nil => exact h
  | cons kv rest ih =>
      rcases kv with ⟨page_id, serialized⟩
      rw [heapWriteLoop]
      dsimp only []
      split
      · exact h
      · apply ih
        rcases hg : aget hs.pages page_id with _ | info
        · dsimp only []
          split <;> exact h
        · dsimp only []
          split <;> exact keysSub_aput_resident _ _ _ _ _ h hg

theorem abortReloadLoop_inv (fuel : Nat) (ps : List Nat) (hs : HeapSegment)
    (h : cacheSubLRU hs) :
    cacheSubLRU (abortReloadLoop fuel ps hs).2 := by
  induction ps generalizing hs with
  | nil => exact h
  | cons p rest ih =>
      rw [abortReloadLoop]
      have h1 : cacheSubLRU { hs with pages := adel hs.pages p } :=
        keysSub_adel _ _ _ h
      have h2 := ensure_page_loaded_inv { hs with pages := adel hs.pages p }
        p fuel h1
      rcases heq : HeapSegment.ensure_page_loaded
          { hs with pages := adel hs.pages p } p fuel with ⟨ro, hs2⟩
      rw [heq] at h2
      rcases ro with _ | e
      · exact h2
      · rcases e with e | u
        · exact h2
        · exact ih _ h2

theorem get_page_inv (hs : HeapSegment) (page_id fuel : Nat)
    (h : cacheSubLRU hs) : cacheSubLRU (hs.get_page page_id fuel).2 := by
  rw [HeapSegment.get_page]
  have h2 := ensure_page_loaded_inv hs page_id fuel h
  rcases heq : hs.ensure_page_loaded page_id fuel with ⟨ro, hs1⟩
  rw [heq] at h2
  rcases ro with _ | e
  · exact h2
  · rcases e with e | u
    · exact h2
    · dsimp only []
      have h3 := update_page_access_inv hs1 page_id h2
      rcases aget (hs1.update_page_access page_id).pages page_id with _ | info
      · exact h3
      · exact h3

theorem get_page_mut_inv (hs : HeapSegment) (page_id txn_id fuel : Nat)
    (h : cacheSubLRU hs) : cacheSubLRU (hs.get_page_mut page_id txn_id fuel).2 := by
  rw [HeapSegment.get_page_mut]
  have h2 := ensure_page_loaded_inv hs page_id fuel h
  rcases heq : hs.ensure_page_loaded page_id fuel with ⟨ro, hs1⟩
  rw [heq] at h2
  rcases ro with _ | e
  · exact h2
  · rcases e with e | u
    · exact h2
    · dsimp only []
      rcases aget hs1.pages page_id with _ | info
      · exact h2
      · dsimp only []
        rcases info.modifying_txn with _ | other
        · exact mark_page_dirty_inv _ page_id txn_id
            (update_page_access_inv _ page_id h2)
        · dsimp only []
          by_cases hne : other ≠ txn_id
          · rw [if_pos hne]
            exact h2
          · rw [if_neg hne]
            exact mark_page_dirty_inv _ page_id txn_id
              (update_page_access_inv _ page_id h2)

theorem applyHeapOp_inv (hs : HeapSegment) (op : HeapOp) (h : cacheSubLRU hs) :
    cacheSubLRU (applyHeapOp hs op) := by
  cases op with
  | allocate txn_id fuel =>
      rw [applyHeapOp, HeapSegment.allocate_page]
      dsimp only []
      split
      · exact h
      · have h2 := cache_page_inv { hs with
          next_page_id := hs.next_page_id + 1,
          file := writeAt hs.file (hs.next_page_id * hs.page_size)
            (SlottedPage.new hs.next_page_id hs.num_slots_per_page).serialize }
          hs.next_page_id (SlottedPage.new hs.next_page_id hs.num_slots_per_page)
          txn_id fuel h
        rcases heq : HeapSegment.cache_page { hs with
            next_page_id := hs.next_page_id + 1,
            file := writeAt hs.file (hs.next_page_id * hs.page_size)
              (SlottedPage.new hs.next_page_id hs.num_slots_per_page).serialize }
            hs.next_page_id (SlottedPage.new hs.next_page_id hs.num_slots_per_page)
            txn_id fuel with ⟨ro, hs1⟩
        rw [heq] at h2
        rcases ro with _ | e
        · exact h2
        · rcases e with e | u <;> exact h2
  | getPage page_id fuel =>
      rw [applyHeapOp]
      exact get_page_inv hs page_id fuel h
  | getPageMut page_id txn_id fuel =>
      rw [applyHeapOp]
      exact get_page_mut_inv hs page_id txn_id fuel h
  | insertRecord page_id record_id txn_id fuel =>
      rw [applyHeapOp, HeapSegment.insert_record]
      have h2 : cacheSubLRU (hs.get_page_mut page_id txn_id fuel).2 :=
        get_page_mut_inv hs page_id txn_id fuel h
      rcases heq : hs.get_page_mut page_id txn_id fuel with ⟨ro, hs1⟩
      rw [heq] at h2
      rcases ro with _ | e
      · exact h2
      · rcases e with e | page
        · exact h2
        · dsimp only []
          rcases page.allocate_slot record_id with ⟨found, page1⟩
          rcases found with _ | slot_index
          · exact h2
          · exact put_page_inv _ page_id _ h2
  | deleteRecord page_id slot_index txn_id fuel =>
      rw [applyHeapOp, HeapSegment.delete_record]
      have h2 : cacheSubLRU (hs.get_page_mut page_id txn_id fuel).2 :=
        get_page_mut_inv hs page_id txn_id fuel h
      rcases heq : hs.get_page_mut page_id txn_id fuel with ⟨ro, hs1⟩
      rw [heq] at h2
      rcases ro with _ | e
      · exact h2
      · rcases e with e | page
        · exact h2
        · dsimp only []
          rcases page.deallocate_slot slot_index with ⟨r1, page1⟩
          rcases r1 with e1 | u1
          · exact h2
          · exact put_page_inv _ page_id _ h2
  | getRecord page_id slot_index fuel =>
      rw [applyHeapOp, HeapSegment.get_record]
      have h2 : cacheSubLRU (hs.get_page page_id fuel).2 :=
        get_page_inv hs page_id fuel h
      rcases heq : hs.get_page page_id fuel with ⟨ro, hs1⟩
      rw [heq] at h2
      rcases ro with _ | e
      · exact h2
      · rcases e with e | page <;> exact h2
  | commitTxn txn_id =>
      rw [applyHeapOp, HeapSegment.commit_transaction]
      exact heapWriteLoop_inv _ _ _ h
  | abortTxn txn_id fuel =>
      rw [applyHeapOp, HeapSegment.abort_transaction]
      exact abortReloadLoop_inv _ _ _ h
  | flushSegment =>
      rw [applyHeapOp, HeapSegment.flush]
      have h2 := heapWriteLoop_inv false
        (hs.dirty_pages.filterMap (fun page_id =>
          (aget hs.pages page_id).map
            (fun info => (page_id, info.page.serialize)))) hs h
      rcases heq : heapWriteLoop false
          (hs.dirty_pages.filterMap (fun page_id =>
            (aget hs.pages page_id).map
              (fun info => (page_id, info.page.serialize)))) hs with ⟨r1, hs1⟩
      rw [heq] at h2
      rw [heq]
      rcases r1 with e1 | u1
      · exact h2
      · exact h2

theorem runHeapOps_inv (ops : List HeapOp) (hs : HeapSegment)
    (h : cacheSubLRU hs) : cacheSubLRU (runHeapOps hs ops) := by
  induction ops generalizing hs with
  | nil => exact h
  | cons op rest ih => exact ih _ (applyHeapOp_inv hs op h)

/-- The public-operation sequence that leaves a stale entry in the LRU
queue: allocate page 0 under txn 10 and commit; have txn 11 take ownership
of page 0 and abort (the reload enqueues page 0 a second time); flush;
allocate page 1 under txn 12 and commit; allocating page 2 under txn 13
then evicts page 0, leaving its duplicate queue entry behind. -/
def c5Ops : List HeapOp :=
  [.allocate 10 3, .commitTxn 10, .getPageMut 0 11 3, .abortTxn 11 3,
   .flushSegment, .allocate 12 3, .commitTxn 12, .allocate 13 3]

/-- C5 counterexample. After `c5Ops` from a fresh segment (page size 32,
1 slot per page, at most 2 cached pages), `PageID 0` is in the LRU queue
but is not a key of the page cache, so the two key sets differ. -/
theorem c5_counterexample_stale_lru_entry :
    0 ∈ (runHeapOps (HeapSegment.new [] 32 1 2) c5Ops).page_access_order ∧
    aget (runHeapOps (HeapSegment.new [] 32 1 2) c5Ops).pages 0 = none := by
  constructor
  · decide
  · rfl

/-- C5 amended. In every state reachable by public heap-segment operations
from a fresh segment, the key set of the page cache is contained in the
PageID set of the LRU queue (the converse inclusion fails: see the
counterexample). -/
theorem c5_cache_keys_in_lru_queue (ops : List HeapOp) (file : List Nat)
    (page_size num_slots max_pages p : Nat)
    (hp : p ∈ akeys (runHeapOps
      (HeapSegment.new file page_size num_slots max_pages) ops).pages) :
    p ∈ (runHeapOps
      (HeapSegment.new file page_size num_slots max_pages) ops).page_access_order := by
  refine runHeapOps_inv ops _ ?_ p hp
  intro q hq
  simp [HeapSegment.new, akeys] at hq

/-- Witness for C5 at the one-operation sequence that allocates page 0. -/
theorem c5_cache_keys_in_lru_queue_witness :
    0 ∈ (runHeapOps (HeapSegment.new [] 32 1 2)
      [HeapOp.allocate 5 0]).page_access_order :=
  c5_cache_keys_in_lru_queue [HeapOp.allocate 5 0] [] 32 1 2 0 (by decide)

end Aries

namespace Aries

/-! ## C9 and C10: the transaction manager's commit/abort error paths -/

theorem aget_adel_self {α : Type} (m : List (Nat × α)) (k : Nat) :
    aget (adel m k) k = none := by
  induction m with
  | nil => rfl
  | cons kv rest ih =>
      rcases kv with ⟨k1, v1⟩
      simp only [adel]
      by_cases hk : k1 = k
      · rw [if_pos hk]
        exact ih
      · rw [if_neg hk]
        simp only [aget, if_neg hk]
        exact ih

/-- C9. Whatever `abort_txn` returns — `Ok`, an error from a page discard or
from the log-driven rollback, or even the modelled panic — the transaction
is no longer in the active-transaction table afterwards: the source removes
it from the table before anything that can fail. -/
theorem c9_abort_txn_removes_from_active (tm : TransactionManager)
    (txn_id : Nat) :
    aget ((tm.abort_txn txn_id).2).active_transactions txn_id = none := by
  rw [TransactionManager.abort_txn]
  rcases hg : aget tm.active_transactions txn_id with _ | txn
  · exact hg
  · dsimp only []
    rcases discardLoop txn.modified_pages tm.buffer_manager with ⟨r1, bm1⟩
    rcases r1 with e1 | u1
    · exact aget_adel_self _ _
    · dsimp only []
      rcases (tm.log_manager.log_abort txn_id bm1) with ⟨r2, lm1, bm2⟩
      exact aget_adel_self _ _

/-- C10. If the active transaction `txn_id` is committed through a flush
function whose per-page loop fails, then `commit_txn_with` returns that
error, the transaction has already been removed from the active table, the
page-lock table is untouched (so every lock the transaction held remains),
and the log is unchanged (no Commit record was appended). -/
theorem c10_commit_flush_failure
    (flush : BufferManager → Nat → Except BuzzDBError Unit × BufferManager)
    (tm : TransactionManager) (txn_id : Nat) (txn : Transaction)
    (e : BuzzDBError) (bm1 : BufferManager)
    (hget : aget tm.active_transactions txn_id = some txn)
    (hfail : flushLoop flush txn.modified_pages tm.buffer_manager =
      (.error e, bm1)) :
    (TransactionManager.commit_txn_with flush tm txn_id).1 = .error e ∧
    aget (TransactionManager.commit_txn_with
      flush tm txn_id).2.active_transactions txn_id = none ∧
    (TransactionManager.commit_txn_with flush tm txn_id).2.page_locks =
      tm.page_locks ∧
    (TransactionManager.commit_txn_with flush tm txn_id).2.log_manager =
      tm.log_manager := by
  rw [TransactionManager.commit_txn_with, hget]
  dsimp only []
  rw [hfail]
  exact ⟨rfl, aget_adel_self _ _, rfl, rfl⟩

/-- A flush function that always fails, standing for a failing
`flush_page`. -/
def c10FailFlush : BufferManager → Nat → Except BuzzDBError Unit × BufferManager :=
  fun bm _ => (.error .BufferFull, bm)

/-- A manager with one active transaction that modified and locked page 1. -/
def c10Tm : TransactionManager :=
  { next_txn_id := 1,
    active_transactions := [(0, { id := 0, started := true,
                                  modified_pages := [1], locked_pages := [1] })],
    page_locks := [(1, 0)],
    log_manager := LogManagerState.new.log_txn_begin 0,
    buffer_manager := BufferManager.new 8 4 }

/-- Witness for C10 at `c10Tm` with the always-failing flush. -/
theorem c10_commit_flush_failure_witness :
    (TransactionManager.commit_txn_with c10FailFlush c10Tm 0).1 =
      .error .BufferFull ∧
    aget (TransactionManager.commit_txn_with
      c10FailFlush c10Tm 0).2.active_transactions 0 = none ∧
    (TransactionManager.commit_txn_with c10FailFlush c10Tm 0).2.page_locks =
      c10Tm.page_locks ∧
    (TransactionManager.commit_txn_with c10FailFlush c10Tm 0).2.log_manager =
      c10Tm.log_manager :=
  c10_commit_flush_failure c10FailFlush c10Tm 0
    { id := 0, started := true, modified_pages := [1], locked_pages := [1] }
    .BufferFull (BufferManager.new 8 4) (by rfl) (by rfl)

end Aries
